import Mathlib

/-!
# WhisperFlow persistent settings store — verification development

Shallow embedding of `src/utils/settings.py`: the `UserSettings` dataclass
(schema, sanitization, serialization), the `SettingsManager` store
(get/set/load/save, debounced persistence, change callbacks) and the
module-level helper functions.

Python dynamic values are modelled by the inductive `PyVal`; Python
exceptions by `Except PyErr`.  The `OutputMode` and `WindowMode` enums live
in `src/config.py`, which is not part of the sources; they are modelled from
the spec (§3): string-valued enums with values `type`/`clipboard` and
`floating`/`normal`, whose `str()` is the enum value (StrEnum behaviour, as
required by the spec's lossless round-trip property).
-/

namespace WhisperFlow

/-- Modelled from the spec: `OutputMode` enum from the missing `src/config.py`,
with values `type` and `clipboard` (spec §3). -/
inductive OutputMode where
  | type
  | clipboard
deriving DecidableEq

/-- Modelled from the spec: `WindowMode` enum from the missing `src/config.py`,
with values `floating` and `normal` (spec §3). -/
inductive WindowMode where
  | floating
  | normal
deriving DecidableEq

/-- The enum member's string value. -/
def OutputMode.value : OutputMode → String
  | .type => "type"
  | .clipboard => "clipboard"

/-- The enum member's string value. -/
def WindowMode.value : WindowMode → String
  | .floating => "floating"
  | .normal => "normal"

/-- Python exception kinds relevant to the settings code. -/
inductive PyErr where
  | valueError
  | typeError
  | attributeError
deriving DecidableEq

/-- Python runtime values as they occur in the settings code: JSON-decodable
values, the two configuration enums, and bound methods (reachable through
`getattr` on the dataclass instance). -/
inductive PyVal where
  | none
  | bool (b : Bool)
  | int (n : Int)
  | str (s : String)
  | list (xs : List PyVal)
  | dict (kvs : List (String × PyVal))
  | om (m : OutputMode)
  | wm (m : WindowMode)
  | method (name : String)

/-- A single-quote character, used by Python `repr` of strings. -/
def pyQuote : String := String.singleton (Char.ofNat 39)

mutual

/-- Python `repr()` of a value (ASCII escaping inside strings elided). -/
def pyRepr : PyVal → String
  | .none => "None"
  | .bool b => if b then "True" else "False"
  | .int n => toString n
  | .str s => pyQuote ++ s ++ pyQuote
  | .list xs => "[" ++ String.intercalate ", " (pyReprList xs) ++ "]"
  | .dict kvs => "\x7b" ++ String.intercalate ", " (pyReprKvs kvs) ++ "\x7d"
  | .om m => "<OutputMode." ++ m.value ++ ">"
  | .wm m => "<WindowMode." ++ m.value ++ ">"
  | .method n => "<bound method UserSettings." ++ n ++ ">"

/-- Pointwise `repr` of the elements of a list. -/
def pyReprList : List PyVal → List String
  | [] => []
  | v :: vs => pyRepr v :: pyReprList vs

/-- Pointwise `repr` of the key/value bindings of a dict. -/
def pyReprKvs : List (String × PyVal) → List String
  | [] => []
  | kv :: kvs => (pyQuote ++ kv.1 ++ pyQuote ++ ": " ++ pyRepr kv.2) :: pyReprKvs kvs

end

/-- Python `str()` of a value.  A string is returned unchanged; a string-enum
member renders as its value (StrEnum `__str__`, spec-modelled); every other
value renders as its `repr`. -/
def pyStr : PyVal → String
  | .str s => s
  | .om m => m.value
  | .wm m => m.value
  | v => pyRepr v

/-- Python truthiness, as used by `bool()`. -/
def pyBool : PyVal → Bool
  | .none => false
  | .bool b => b
  | .int n => n != 0
  | .str s => s != ""
  | .list xs => !xs.isEmpty
  | .dict kvs => !kvs.isEmpty
  | .om _ => true
  | .wm _ => true
  | .method _ => true

/-- Whitespace characters stripped by Python `int(str)`. -/
def isPyIntSpace (c : Char) : Bool :=
  c == ' ' || c == '\t' || c == '\n' || c == '\r' || c == Char.ofNat 11 || c == Char.ofNat 12

/-- Strip leading and trailing `int()` whitespace from a character list. -/
def stripChars (l : List Char) : List Char :=
  ((l.dropWhile isPyIntSpace).reverse.dropWhile isPyIntSpace).reverse

/-- Digits after the first one: ASCII digits, with single underscores allowed
only between digits. `acc` is the numeric value accumulated so far. -/
def parseDigitsRest : List Char → Nat → Option Nat
  | [], acc => some acc
  | c :: cs, acc =>
    if c.isDigit then parseDigitsRest cs (acc * 10 + (c.toNat - 48))
    else if c == '_' then
      match cs with
      | d :: ds =>
        if d.isDigit then parseDigitsRest ds (acc * 10 + (d.toNat - 48)) else Option.none
      | [] => Option.none
    else Option.none

/-- A nonempty ASCII digit sequence (with legal underscores) as a number. -/
def parseDigits : List Char → Option Nat
  | c :: cs => if c.isDigit then parseDigitsRest cs (c.toNat - 48) else Option.none
  | [] => Option.none

/-- Models Python `int(s)` on a string: optional surrounding whitespace,
optional sign, ASCII digits with underscores between digits; a `ValueError`
otherwise. -/
def parsePyIntStr (s : String) : Except PyErr Int :=
  match stripChars s.data with
  | '+' :: rest =>
    match parseDigits rest with
    | some n => .ok (Int.ofNat n)
    | Option.none => .error .valueError
  | '-' :: rest =>
    match parseDigits rest with
    | some n => .ok (-(Int.ofNat n : Int))
    | Option.none => .error .valueError
  | l =>
    match parseDigits l with
    | some n => .ok (Int.ofNat n)
    | Option.none => .error .valueError

/-- Models Python `int(value)`: exact for bools and ints, string parsing for
strings (a string-enum member parses its value string), `TypeError` for
`None`, containers and methods. -/
def pyInt : PyVal → Except PyErr Int
  | .bool b => .ok (if b then 1 else 0)
  | .int n => .ok n
  | .str s => parsePyIntStr s
  | .om m => parsePyIntStr m.value
  | .wm m => parsePyIntStr m.value
  | .none => .error .typeError
  | .list _ => .error .typeError
  | .dict _ => .error .typeError
  | .method _ => .error .typeError

/-- Models Python string slicing `s[:n]`. -/
def pyTake (s : String) (n : Nat) : String := String.mk (s.data.take n)

/-- Models `data.get(key, default)` on a dict. -/
def dget (d : List (String × PyVal)) (key : String) (dflt : PyVal) : PyVal :=
  match d.find? (fun kv => kv.1 == key) with
  | some kv => kv.2
  | Option.none => dflt

/-- Models `OutputMode(value)`: the member itself, or value lookup on the
enum's string values; `ValueError` otherwise. -/
def OutputMode.ofVal : PyVal → Except PyErr OutputMode
  | .om m => .ok m
  | .str "type" => .ok .type
  | .str "clipboard" => .ok .clipboard
  | _ => .error .valueError

/-- Models `WindowMode(value)`: the member itself, or value lookup on the
enum's string values; `ValueError` otherwise. -/
def WindowMode.ofVal : PyVal → Except PyErr WindowMode
  | .wm m => .ok m
  | .str "floating" => .ok .floating
  | .str "normal" => .ok .normal
  | _ => .error .valueError

/-- The `UserSettings` dataclass instance.  Attributes are dynamically typed:
`setattr` stores whatever value it is given, so each slot holds a `PyVal`.
Defaults are those of the dataclass declaration. -/
structure UserSettings where
  push_to_talk_key : PyVal := .str "f2"
  output_mode : PyVal := .om .type
  language : PyVal := .str "fr"
  smart_formatting_enabled : PyVal := .bool true
  smart_formatting_level : PyVal := .str "basic"
  window_mode : PyVal := .wm .floating
  window_position_x : PyVal := .int (-1)
  window_position_y : PyVal := .int (-1)

/-- Embeds `UserSettings.from_dict`: builds an instance from a dict,
sanitizing each field; unknown keys are ignored.  `int()` failures on the two
window-position fields are uncaught in the source and propagate as
exceptions. -/
def UserSettings.from_dict (data : List (String × PyVal)) :
    Except PyErr UserSettings := do
  let ptt_key := pyTake (pyStr (dget data "push_to_talk_key" (.str "f2"))) 50
  let output_mode_raw := dget data "output_mode" (.om .type)
  let language := pyTake (pyStr (dget data "language" (.str "fr"))) 10
  let output_mode :=
    match OutputMode.ofVal output_mode_raw with
    | .ok m => m
    | .error _ => OutputMode.type
  let smart_enabled := pyBool (dget data "smart_formatting_enabled" (.bool true))
  let smart_level0 := pyTake (pyStr (dget data "smart_formatting_level" (.str "basic"))) 10
  let smart_level :=
    if smart_level0 = "none" ∨ smart_level0 = "basic" ∨ smart_level0 = "smart" then
      smart_level0
    else "basic"
  let window_mode_s := pyTake (pyStr (dget data "window_mode" (.wm .floating))) 20
  let window_mode :=
    match WindowMode.ofVal (.str window_mode_s) with
    | .ok m => m
    | .error _ => WindowMode.floating
  let window_x ← pyInt (dget data "window_position_x" (.int (-1)))
  let window_y ← pyInt (dget data "window_position_y" (.int (-1)))
  return { push_to_talk_key := .str ptt_key
           output_mode := .om output_mode
           language := .str language
           smart_formatting_enabled := .bool smart_enabled
           smart_formatting_level := .str smart_level
           window_mode := .wm window_mode
           window_position_x := .int window_x
           window_position_y := .int window_y }

/-- Embeds `UserSettings.to_dict` via `dataclasses.asdict`: field name to
current value, in declaration order. -/
def UserSettings.to_dict (s : UserSettings) : List (String × PyVal) :=
  [("push_to_talk_key", s.push_to_talk_key),
   ("output_mode", s.output_mode),
   ("language", s.language),
   ("smart_formatting_enabled", s.smart_formatting_enabled),
   ("smart_formatting_level", s.smart_formatting_level),
   ("window_mode", s.window_mode),
   ("window_position_x", s.window_position_x),
   ("window_position_y", s.window_position_y)]

/-- The eight schema field names (the dataclass slots). -/
def fieldNames : List String :=
  ["push_to_talk_key", "output_mode", "language", "smart_formatting_enabled",
   "smart_formatting_level", "window_mode", "window_position_x", "window_position_y"]

/-- Non-field attributes reachable on a `UserSettings` instance: the methods
of the class and the inherited/generated dunder attributes.  `hasattr` is true
for them, but `setattr` raises because the slotted instance has no writable
attribute of that name. -/
def classAttrs : List String :=
  ["from_dict", "to_dict", "__init__", "__repr__", "__eq__", "__hash__",
   "__slots__", "__class__", "__doc__", "__module__", "__dataclass_fields__",
   "__dataclass_params__", "__match_args__", "__delattr__", "__setattr__",
   "__getattribute__", "__dir__", "__sizeof__", "__reduce__", "__reduce_ex__",
   "__format__", "__str__", "__ne__", "__new__", "__init_subclass__",
   "__subclasshook__", "__getstate__", "__setstate__"]

/-- Models `hasattr(self._settings, key)`. -/
def hasattrUS (key : String) : Bool :=
  fieldNames.contains key || classAttrs.contains key

/-- Models `setattr(self._settings, key, value)`: stores the raw value into a
slot field without any validation; on any other attribute the slotted
instance raises (AttributeError for the read-only class attributes). -/
def rawSetattr (s : UserSettings) (key : String) (v : PyVal) :
    Except PyErr UserSettings :=
  if key = "push_to_talk_key" then .ok { s with push_to_talk_key := v }
  else if key = "output_mode" then .ok { s with output_mode := v }
  else if key = "language" then .ok { s with language := v }
  else if key = "smart_formatting_enabled" then .ok { s with smart_formatting_enabled := v }
  else if key = "smart_formatting_level" then .ok { s with smart_formatting_level := v }
  else if key = "window_mode" then .ok { s with window_mode := v }
  else if key = "window_position_x" then .ok { s with window_position_x := v }
  else if key = "window_position_y" then .ok { s with window_position_y := v }
  else .error .attributeError

/-- Models `getattr(self._settings, key, default)`: a field's current value, a
bound method for the class attributes, else the default. -/
def getattrOr (s : UserSettings) (key : String) (dflt : PyVal) : PyVal :=
  if key = "push_to_talk_key" then s.push_to_talk_key
  else if key = "output_mode" then s.output_mode
  else if key = "language" then s.language
  else if key = "smart_formatting_enabled" then s.smart_formatting_enabled
  else if key = "smart_formatting_level" then s.smart_formatting_level
  else if key = "window_mode" then s.window_mode
  else if key = "window_position_x" then s.window_position_x
  else if key = "window_position_y" then s.window_position_y
  else if classAttrs.contains key then .method key
  else dflt

/-- A registered change callback, identified by `id`; `raises` says whether
invoking it raises an exception. -/
structure Callback where
  id : Nat
  raises : Bool
deriving DecidableEq

/-- One callback invocation observed during `set`: which callback ran, the
arguments it received, and whether it raised (the raise is swallowed by the
`try/except` around the call, so it is recorded, not propagated). -/
structure Invocation where
  cb : Nat
  key : String
  value : PyVal
  raised : Bool

/-- The notification loop at the end of `set`: every callback is called with
`(key, value)` in list order; the `try/except Exception: pass` around each
call swallows a raising callback, so iteration continues regardless. -/
def runCallbacks (cbs : List Callback) (key : String) (v : PyVal) :
    List Invocation :=
  cbs.map (fun c => ⟨c.id, key, v, c.raises⟩)

/-- A `threading.Timer` created by `_schedule_save`: it runs `save` at
`deadline` unless cancelled first. -/
structure Timer where
  deadline : Nat
  cancelled : Bool
  fired : Bool

/-- A timer still outstanding: armed, not cancelled, not yet fired. -/
def Timer.active (tm : Timer) : Bool := !tm.cancelled && !tm.fired

/-- The debounce quiescence window (`_save_delay`), in milliseconds. -/
def SAVE_DELAY : Nat := 500

/-- The `SettingsManager` state: the in-memory record, the registered
callbacks, the log of timers created so far (append-only), and the index of
the handle currently held in `self._save_timer`. -/
structure Manager where
  settings : UserSettings := {}
  callbacks : List Callback := []
  timers : List Timer := []
  save_timer : Option Nat := Option.none

/-- Embeds `_schedule_save` at time `now`: cancel the held timer (if any),
then arm a fresh timer due at `now + 500 ms` and hold it. -/
def scheduleSave (m : Manager) (now : Nat) : Manager :=
  let timers :=
    match m.save_timer with
    | some i =>
      match m.timers[i]? with
      | some tm => m.timers.set i { tm with cancelled := true }
      | Option.none => m.timers
    | Option.none => m.timers
  { m with timers := timers ++ [⟨now + SAVE_DELAY, false, false⟩],
           save_timer := some timers.length }

/-- Embeds `SettingsManager.set(key, value, save=...)` at time `now`: under
the lock, a key that is not an attribute returns immediately (no store, no
save, no callbacks); `setattr` on a non-field attribute raises out of `set`;
otherwise the raw value is stored, a debounced save is armed when `save` is
true, and all callbacks are then notified outside the lock. -/
def SettingsManager.set (m : Manager) (now : Nat) (key : String) (v : PyVal)
    (save : Bool := true) : Except PyErr (Manager × List Invocation) :=
  if !hasattrUS key then .ok (m, [])
  else
    match rawSetattr m.settings key v with
    | .error e => .error e
    | .ok s =>
      let m1 : Manager := { m with settings := s }
      let m2 := if save then scheduleSave m1 now else m1
      .ok (m2, runCallbacks m2.callbacks key v)

/-- Embeds `SettingsManager.get(key, default)`. -/
def SettingsManager.get (m : Manager) (key : String) (dflt : PyVal := .none) :
    PyVal :=
  getattrOr m.settings key dflt

/-- Embeds `on_change`: append a callback to the subscription list. -/
def SettingsManager.on_change (m : Manager) (c : Callback) : Manager :=
  { m with callbacks := m.callbacks ++ [c] }

/-- Embeds `remove_callback`: `list.remove` drops the first occurrence; the
`ValueError` raised for an absent callback is caught, making it a no-op. -/
def SettingsManager.remove_callback (m : Manager) (c : Callback) : Manager :=
  { m with callbacks := m.callbacks.erase c }

/-- The persisted file as `load` observes it: its byte size and the result of
JSON-decoding its text (`Option.none` when the content is not well-formed
JSON). -/
structure FileRaw where
  size : Nat
  parsed : Option PyVal

/-- Maximum size of the config file (`MAX_CONFIG_SIZE`): 10 KiB. -/
def MAX_CONFIG_SIZE : Nat := 10 * 1024

/-- Embeds `SettingsManager.load()` against file state `fs` (`Option.none` =
no file): returns the success flag and the manager afterwards.  A missing
file, an oversized file, malformed JSON, a non-dict top level and `from_dict`
exceptions are all absorbed to a `false` return, leaving the record as it
was. -/
def SettingsManager.load (m : Manager) (fs : Option FileRaw) : Bool × Manager :=
  match fs with
  | Option.none => (false, m)
  | some f =>
    if f.size > MAX_CONFIG_SIZE then (false, m)
    else
      match f.parsed with
      | Option.none => (false, m)
      | some (.dict d) =>
        match UserSettings.from_dict d with
        | .ok s => (true, { m with settings := s })
        | .error _ => (false, m)
      | some _ => (false, m)

/-- On-disk state around `save`: the settings file and its `.tmp` sibling,
each `Option.none` when absent.  File contents are abstracted as the dumped
dict (the JSON text encoding is injective on it). -/
structure DiskState where
  main : Option (List (String × PyVal))
  temp : Option (List (String × PyVal))

/-- Outcome oracle for the fallible part of `save`: `ok`, or a failure while
writing the temporary file, with `junk` the (possibly incomplete) content the
temporary file holds when the exception is raised. -/
inductive SaveOutcome where
  | ok
  | failTempWrite (junk : Option (List (String × PyVal)))

/-- Embeds `SettingsManager.save()`: dump the record to the `.tmp` sibling,
then atomically `replace` it onto the settings file.  On a write failure the
`except` block unlinks the temporary file (`missing_ok=True`) and returns
`false`.  Besides the flag and the final disk state, the list of intermediate
observable disk states is returned, for the no-half-written-file property. -/
def SettingsManager.save (m : Manager) (d : DiskState) (outcome : SaveOutcome) :
    Bool × DiskState × List DiskState :=
  match outcome with
  | .ok =>
    let written : DiskState := { main := d.main, temp := some m.settings.to_dict }
    let replaced : DiskState := { main := some m.settings.to_dict, temp := Option.none }
    (true, replaced, [written, replaced])
  | .failTempWrite junk =>
    let broken : DiskState := { main := d.main, temp := junk }
    let cleaned : DiskState := { main := d.main, temp := Option.none }
    (false, cleaned, [broken, cleaned])

/-- Embeds the module helper `set_sound_enabled(enabled)`. -/
def set_sound_enabled (m : Manager) (now : Nat) (enabled : Bool) :
    Except PyErr (Manager × List Invocation) :=
  SettingsManager.set m now "sound_enabled" (.bool enabled)

/-- Embeds the module helper `get_sound_enabled()`. -/
def get_sound_enabled (m : Manager) : PyVal :=
  SettingsManager.get m "sound_enabled" (.bool true)

/-- Embeds the module helper `set_history_enabled(enabled)`. -/
def set_history_enabled (m : Manager) (now : Nat) (enabled : Bool) :
    Except PyErr (Manager × List Invocation) :=
  SettingsManager.set m now "history_enabled" (.bool enabled)

/-- Embeds the module helper `get_history_enabled()`. -/
def get_history_enabled (m : Manager) : PyVal :=
  SettingsManager.get m "history_enabled" (.bool true)

/-- The store plus the externally observable disk writes performed by fired
save timers; each write snapshots the record at fire time (the timer runs
`self.save`, which serializes the then-current record). -/
structure Sched where
  m : Manager
  writes : List UserSettings

/-- A timer due at time `t`: still outstanding and past its deadline. -/
def Timer.due (tm : Timer) (t : Nat) : Bool :=
  tm.active && decide (tm.deadline ≤ t)

/-- Elapse to time `t`: every due timer fires, each appending one disk write
of the current record. -/
def fireTimers (w : Sched) (t : Nat) : Sched :=
  { m := { w.m with
           timers := w.m.timers.map fun tm =>
             if tm.due t then { tm with fired := true } else tm },
    writes := w.writes ++
      List.replicate (w.m.timers.countP (fun tm => tm.due t)) w.m.settings }

/-- End of trace: enough time passes for any still-outstanding timer to
fire. -/
def flushTimers (w : Sched) : Sched :=
  { m := { w.m with
           timers := w.m.timers.map fun tm =>
             if tm.active then { tm with fired := true } else tm },
    writes := w.writes ++
      List.replicate (w.m.timers.countP (fun tm => tm.active)) w.m.settings }

/-- One persisting `set(key, value)` call issued at time `t`. -/
structure SetEvent where
  t : Nat
  key : String
  value : PyVal

/-- Run a sequence of persisting `set` calls: before each call the clock
advances to its time (due timers fire), then the call executes.
`Option.none` when some call raised. -/
def runEvents (w : Sched) : List SetEvent → Option Sched
  | [] => some w
  | e :: es =>
    let w1 := fireTimers w e.t
    match SettingsManager.set w1.m e.t e.key e.value true with
    | .error _ => Option.none
    | .ok (m2, _) => runEvents { m := m2, writes := w1.writes } es

/-- Run the burst and then let any remaining timer fire. -/
def runBurst (w : Sched) (es : List SetEvent) : Option Sched :=
  match runEvents w es with
  | some w1 => some (flushTimers w1)
  | Option.none => Option.none

/-- The burst timing condition from `t`: each event is at or after the
previous instant and strictly within the 500 ms quiescence window of it. -/
def GoodFrom : Nat → List SetEvent → Prop
  | _, [] => True
  | t, e :: es => t ≤ e.t ∧ e.t < t + SAVE_DELAY ∧ GoodFrom e.t es

/-- The record after a known-field `set` (raw store, no sanitization). -/
def updKnown (s : UserSettings) (key : String) (v : PyVal) : UserSettings :=
  match rawSetattr s key v with
  | .ok s1 => s1
  | .error _ => s

/-- Fresh scheduler state: default record, no timers, no writes. -/
def freshSched : Sched := { m := {}, writes := [] }

/-- Timer-handle invariant: every active timer in the log is the one held in
`_save_timer`; in particular at most one timer is outstanding at any time. -/
def InvAct (m : Manager) : Prop :=
  ∀ j tm, m.timers[j]? = some tm → tm.active = true → m.save_timer = some j

/-- A 100-character string of `a`, the spec's Scenario C input. -/
def a100 : String := String.mk (List.replicate 100 'a')

/-- Slicing a string no longer than `n` with `[:n]` returns it unchanged. -/
theorem pyTake_of_le (s : String) (n : Nat) (h : s.length ≤ n) :
    pyTake s n = s := by
  cases s with
  | mk data => exact congrArg String.mk (List.take_of_length_le h)

/-- C10: the module helpers `set_sound_enabled` and `set_history_enabled` are
complete no-ops for every input and every store state, because
`sound_enabled` and `history_enabled` are not attributes of `UserSettings`;
and `get_sound_enabled` / `get_history_enabled` always return `True`, their
hard-coded defaults, whatever the state (so in particular after any prior
`set_sound_enabled(False)` or `set_history_enabled(False)`). -/
theorem c10_sound_history_helpers_noop :
    ∀ (m : Manager) (now : Nat) (e : Bool),
      set_sound_enabled m now e = .ok (m, []) ∧
      set_history_enabled m now e = .ok (m, []) ∧
      get_sound_enabled m = .bool true ∧
      get_history_enabled m = .bool true := by
  intro m now e
  exact ⟨rfl, rfl, rfl, rfl⟩

/-- C9 counterexample: `set("to_dict", 0)` is not a no-op.  `hasattr` is true
for the method `to_dict`, so the guard is passed, and `setattr` on the
slotted instance then raises `AttributeError`, which propagates out of
`set`. -/
theorem c9_counterexample_to_dict_raises :
    SettingsManager.set {} 0 "to_dict" (.int 0) true = .error .attributeError := rfl

/-- C9 amended: for every key that is not an attribute of the record —
neither one of the eight schema fields nor a class attribute such as
`to_dict` — `set` is a complete no-op: the manager (record, callbacks,
timers, held timer handle) is unchanged, no save is armed even with
`save=True`, no callback fires and no error is reported.  (For a key naming a
non-field attribute, `set` raises instead, per the counterexample.) -/
theorem c9_unknown_key_noop (m : Manager) (now : Nat) (key : String)
    (v : PyVal) (sv : Bool) (h : hasattrUS key = false) :
    SettingsManager.set m now key v sv = .ok (m, []) := by
  unfold SettingsManager.set
  rw [h]
  rfl

/-- Witness for the amended C9 at a concrete unknown key. -/
theorem c9_unknown_key_noop_witness :
    SettingsManager.set {} 0 "bogus_key" (.int 7) true = .ok ({}, []) :=
  c9_unknown_key_noop {} 0 "bogus_key" (.int 7) true rfl

/-- C1 counterexample: `set` does not sanitize.  After
`set("push_to_talk_key", "a"*100)`, `get` returns the raw 100-character
string, not a 50-character one; after `set("output_mode", "bogus")`, `get`
returns the raw string `"bogus"`, not the `type` enum member. -/
theorem c1_counterexample_set_stores_raw :
    (SettingsManager.set {} 0 "push_to_talk_key" (.str a100) true).map
        (fun r => SettingsManager.get r.1 "push_to_talk_key" .none) =
      .ok (.str a100) ∧
    a100.length = 100 ∧
    (SettingsManager.set {} 0 "output_mode" (.str "bogus") true).map
        (fun r => SettingsManager.get r.1 "output_mode" .none) =
      .ok (.str "bogus") := by
  refine ⟨rfl, ?_, rfl⟩
  show (List.replicate 100 'a').length = 100
  simp

/-- C1 amended: `set(field, value)` stores the value raw, with no
sanitization, for every schema field and every value: a subsequent
`get(field)` returns exactly the input, even when it is out-of-domain.  The
sanitization table applies only on the load path (`UserSettings.from_dict`). -/
theorem c1_amended_set_then_get_raw (m : Manager) (now : Nat) (key : String)
    (v : PyVal) (sv : Bool) (h : key ∈ fieldNames) :
    (SettingsManager.set m now key v sv).map
      (fun r => SettingsManager.get r.1 key .none) = .ok v := by
  fin_cases h <;> cases sv <;> rfl

/-- Witness for the amended C1 at a concrete field and value. -/
theorem c1_amended_witness :
    (SettingsManager.set {} 0 "language" (.str "en") true).map
      (fun r => SettingsManager.get r.1 "language" .none) = .ok (.str "en") :=
  c1_amended_set_then_get_raw {} 0 "language" (.str "en") true (by decide)

/-- C8: after every successful `set`, every registered callback is invoked
with `(key, value)` in subscription order — including the callbacks that
follow a raising one, whose exception is swallowed — the stored record is
`updKnown` of the old record, independent of the callbacks and of whether any
of them raises, the subscription list is untouched, and `remove_callback` on
an unregistered callback is a no-op, not an error. -/
theorem c8_callbacks_ordered_isolated (m : Manager) (now : Nat) (key : String)
    (v : PyVal) (sv : Bool) (m1 : Manager) (invs : List Invocation)
    (hkey : hasattrUS key = true)
    (hok : SettingsManager.set m now key v sv = .ok (m1, invs)) :
    invs.map Invocation.cb = m.callbacks.map Callback.id ∧
    invs.map Invocation.raised = m.callbacks.map Callback.raises ∧
    (∀ i ∈ invs, i.key = key ∧ i.value = v) ∧
    m1.settings = updKnown m.settings key v ∧
    m1.callbacks = m.callbacks ∧
    (∀ c ∉ m.callbacks, SettingsManager.remove_callback m c = m) := by
  unfold SettingsManager.set at hok
  rw [hkey] at hok
  simp only [Bool.not_true, Bool.false_eq_true, if_false] at hok
  cases hra : rawSetattr m.settings key v with
  | error e => rw [hra] at hok; cases hok
  | ok s =>
    rw [hra] at hok
    have hm2 : m1 = (if sv then scheduleSave { m with settings := s } now
        else { m with settings := s }) ∧
        invs = runCallbacks (if sv then scheduleSave { m with settings := s } now
          else { m with settings := s }).callbacks key v := by
      cases sv <;> (injection hok with h1; injection h1 with h2 h3; exact ⟨h2.symm, h3.symm⟩)
    obtain ⟨hm1, hinvs⟩ := hm2
    have hcb : (if sv then scheduleSave { m with settings := s } now
        else { m with settings := s }).callbacks = m.callbacks := by
      cases sv <;> rfl
    refine ⟨?_, ?_, ?_, ?_, ?_, ?_⟩
    · rw [hinvs, hcb]; simp [runCallbacks]
    · rw [hinvs, hcb]; simp [runCallbacks]
    · intro i hi
      rw [hinvs] at hi
      simp [runCallbacks] at hi
      obtain ⟨c, _, hc⟩ := hi
      rw [← hc]
      exact ⟨rfl, rfl⟩
    · have : m1.settings = s := by rw [hm1]; cases sv <;> rfl
      rw [this]
      unfold updKnown
      rw [hra]
    · rw [hm1, hcb]
    · intro c hc
      unfold SettingsManager.remove_callback
      rw [List.erase_of_not_mem hc]

/-- Witness for C8: a concrete `set` on a store with two callbacks, the first
of which raises. -/
theorem c8_callbacks_witness :
    ([⟨1, "language", .str "en", true⟩, ⟨2, "language", .str "en", false⟩] :
        List Invocation).map Invocation.cb =
      ([⟨1, true⟩, ⟨2, false⟩] : List Callback).map Callback.id ∧
    ([⟨1, "language", .str "en", true⟩, ⟨2, "language", .str "en", false⟩] :
        List Invocation).map Invocation.raised =
      ([⟨1, true⟩, ⟨2, false⟩] : List Callback).map Callback.raises ∧
    (∀ i ∈ ([⟨1, "language", .str "en", true⟩, ⟨2, "language", .str "en", false⟩] :
        List Invocation), i.key = "language" ∧ i.value = .str "en") ∧
    ({ settings := { language := .str "en" },
       callbacks := [⟨1, true⟩, ⟨2, false⟩],
       timers := [⟨SAVE_DELAY, false, false⟩],
       save_timer := some 0 } : Manager).settings =
      updKnown ({ callbacks := [⟨1, true⟩, ⟨2, false⟩] } : Manager).settings
        "language" (.str "en") ∧
    ({ settings := { language := .str "en" },
       callbacks := [⟨1, true⟩, ⟨2, false⟩],
       timers := [⟨SAVE_DELAY, false, false⟩],
       save_timer := some 0 } : Manager).callbacks =
      ({ callbacks := [⟨1, true⟩, ⟨2, false⟩] } : Manager).callbacks ∧
    (∀ c ∉ ({ callbacks := [⟨1, true⟩, ⟨2, false⟩] } : Manager).callbacks,
      SettingsManager.remove_callback ({ callbacks := [⟨1, true⟩, ⟨2, false⟩] } : Manager) c =
        { callbacks := [⟨1, true⟩, ⟨2, false⟩] }) :=
  c8_callbacks_ordered_isolated { callbacks := [⟨1, true⟩, ⟨2, false⟩] } 0
    "language" (.str "en") true _ _ rfl rfl

/-- C4: whenever `load()` does not succeed it returns `false` (never raising:
the embedding is a total function) and leaves the manager — in particular the
in-memory record — exactly as it was; and each listed failure cause (missing
file, oversized file, malformed JSON, non-dict top level, a `from_dict`
exception) indeed makes it return `false`. -/
theorem c4_load_failure_preserves (m : Manager) (fs : Option FileRaw) :
    ((SettingsManager.load m fs).1 = false → SettingsManager.load m fs = (false, m)) ∧
    (fs = Option.none → (SettingsManager.load m fs).1 = false) ∧
    (∀ f, fs = some f →
      (f.size > MAX_CONFIG_SIZE ∨ f.parsed = Option.none ∨
          (∀ d, f.parsed = some (.dict d) → (UserSettings.from_dict d).isOk = false)) →
        (SettingsManager.load m fs).1 = false) := by
  refine ⟨?_, ?_, ?_⟩
  · intro h
    rcases fs with _ | ⟨sz, p⟩
    · rfl
    · by_cases hsz : sz > MAX_CONFIG_SIZE
      · simp [SettingsManager.load, hsz]
      · rcases p with _ | v
        · simp [SettingsManager.load, hsz]
        · rcases v with _ | b | n | s2 | xs | kvs | om1 | wm1 | nm
          · simp [SettingsManager.load, hsz]
          · simp [SettingsManager.load, hsz]
          · simp [SettingsManager.load, hsz]
          · simp [SettingsManager.load, hsz]
          · simp [SettingsManager.load, hsz]
          · cases hfd : UserSettings.from_dict kvs with
            | ok s => simp [SettingsManager.load, hsz, hfd] at h
            | error e => simp [SettingsManager.load, hsz, hfd]
          · simp [SettingsManager.load, hsz]
          · simp [SettingsManager.load, hsz]
          · simp [SettingsManager.load, hsz]
  · intro h; rw [h]; rfl
  · intro f hf hcause
    subst hf
    obtain ⟨sz, p⟩ := f
    rcases hcause with hsz | hp | hfd
    · simp [SettingsManager.load, hsz]
    · rcases p with _ | v
      · by_cases hsz : sz > MAX_CONFIG_SIZE <;> simp [SettingsManager.load, hsz]
      · simp at hp
    · by_cases hsz : sz > MAX_CONFIG_SIZE
      · simp [SettingsManager.load, hsz]
      · rcases p with _ | v
        · simp [SettingsManager.load, hsz]
        · rcases v with _ | b | n | s2 | xs | kvs | om1 | wm1 | nm
          · simp [SettingsManager.load, hsz]
          · simp [SettingsManager.load, hsz]
          · simp [SettingsManager.load, hsz]
          · simp [SettingsManager.load, hsz]
          · simp [SettingsManager.load, hsz]
          · have hbad := hfd kvs rfl
            cases hfd2 : UserSettings.from_dict kvs with
            | ok s => rw [hfd2] at hbad; simp [Except.isOk, Except.toBool] at hbad
            | error e => simp [SettingsManager.load, hsz, hfd2]
          · simp [SettingsManager.load, hsz]
          · simp [SettingsManager.load, hsz]
          · simp [SettingsManager.load, hsz]

/-- Witness for C4: a fresh store and a small file whose `window_position_x`
value makes `from_dict` raise — `load` reports `false` and keeps the default
record. -/
theorem c4_load_failure_witness :
    SettingsManager.load {}
      (some ⟨20, some (.dict [("window_position_x", .str "abc")])⟩) =
      (false, {}) :=
  (c4_load_failure_preserves {}
    (some ⟨20, some (.dict [("window_position_x", .str "abc")])⟩)).1 rfl

/-- C5: a persisted file strictly larger than 10 KiB is rejected whatever its
content is (the parse outcome is irrelevant: the size check precedes
parsing): `load` returns `false` non-fatally and the manager keeps its
current in-memory record.  Content that is not well-formed JSON, or whose top
level is not a dict, is rejected the same way at any size. -/
theorem c5_oversized_rejected (m : Manager) (n : Nat) (p : Option PyVal)
    (h : n > MAX_CONFIG_SIZE) :
    SettingsManager.load m (some ⟨n, p⟩) = (false, m) ∧
    (∀ k, SettingsManager.load m (some ⟨k, Option.none⟩) = (false, m)) ∧
    (∀ k v, (∀ d, v ≠ PyVal.dict d) →
      SettingsManager.load m (some ⟨k, some v⟩) = (false, m)) := by
  refine ⟨?_, ?_, ?_⟩
  · simp [SettingsManager.load, h]
  · intro k
    by_cases hsz : k > MAX_CONFIG_SIZE <;> simp [SettingsManager.load, hsz]
  · intro k v hv
    by_cases hsz : k > MAX_CONFIG_SIZE
    · simp [SettingsManager.load, hsz]
    · rcases v with _ | b | n | s2 | xs | kvs | om1 | wm1 | nm
      · simp [SettingsManager.load, hsz]
      · simp [SettingsManager.load, hsz]
      · simp [SettingsManager.load, hsz]
      · simp [SettingsManager.load, hsz]
      · simp [SettingsManager.load, hsz]
      · exact absurd rfl (hv kvs)
      · simp [SettingsManager.load, hsz]
      · simp [SettingsManager.load, hsz]
      · simp [SettingsManager.load, hsz]

/-- Witness for C5: an 11 KiB file containing an otherwise valid document is
rejected by a fresh (all-defaults) store. -/
theorem c5_oversized_rejected_witness :
    SettingsManager.load {}
      (some ⟨11 * 1024, some (.dict [("language", .str "en")])⟩) = (false, {}) :=
  (c5_oversized_rejected {} (11 * 1024) (some (.dict [("language", .str "en")]))
    (by decide)).1

/-- C7: `save` writes the complete serialized record to the `.tmp` sibling
and then atomically replaces the settings file with it — in every observable
disk state the main file is either its previous content or the complete
serialization, never a half-written mixture; on a temporary-file write
failure, `save` returns `false` (non-fatally), the temporary file is removed,
and the previously persisted file is untouched.  The in-memory record is
read-only throughout `save`. -/
theorem c7_save_atomic_and_cleanup (m : Manager) (d : DiskState)
    (outcome : SaveOutcome) :
    (SettingsManager.save m d .ok =
      (true, ⟨some m.settings.to_dict, Option.none⟩,
        [⟨d.main, some m.settings.to_dict⟩,
         ⟨some m.settings.to_dict, Option.none⟩])) ∧
    (∀ junk, SettingsManager.save m d (.failTempWrite junk) =
      (false, ⟨d.main, Option.none⟩, [⟨d.main, junk⟩, ⟨d.main, Option.none⟩])) ∧
    (∀ st ∈ (SettingsManager.save m d outcome).2.2,
      st.main = d.main ∨ st.main = some m.settings.to_dict) := by
  refine ⟨rfl, fun junk => rfl, ?_⟩
  cases outcome with
  | ok =>
    intro st hst
    simp [SettingsManager.save] at hst
    rcases hst with h | h <;> rw [h] <;> simp
  | failTempWrite junk =>
    intro st hst
    simp [SettingsManager.save] at hst
    rcases hst with h | h <;> rw [h] <;> simp

/-- Witness for C7: a successful save of a fresh store over an empty disk. -/
theorem c7_save_witness :
    SettingsManager.save {} ⟨Option.none, Option.none⟩ .ok =
      (true, ⟨some (UserSettings.to_dict {}), Option.none⟩,
        [⟨Option.none, some (UserSettings.to_dict {})⟩,
         ⟨some (UserSettings.to_dict {}), Option.none⟩]) :=
  (c7_save_atomic_and_cleanup {} ⟨Option.none, Option.none⟩ .ok).1

/-- C2 counterexample: `from_dict` is not total.  A single bad value for
`window_position_x` — a string `int()` cannot parse — makes the uncaught
`int()` call raise `ValueError` out of `from_dict`, so one bad field prevents
the whole record from being produced. -/
theorem c2_counterexample_from_dict_raises :
    UserSettings.from_dict [("window_position_x", .str "abc")] =
      .error .valueError := rfl

/-- C2 amended: `from_dict` never fails provided the values found under
`window_position_x` and `window_position_y` (their integer defaults when
absent) are `int()`-coercible; for the other six fields, absent or invalid
values fall back to the field's default or coerced form and never raise. -/
theorem c2_amended_from_dict_total (data : List (String × PyVal))
    (hx : (pyInt (dget data "window_position_x" (.int (-1)))).isOk = true)
    (hy : (pyInt (dget data "window_position_y" (.int (-1)))).isOk = true) :
    (UserSettings.from_dict data).isOk = true := by
  cases hx2 : pyInt (dget data "window_position_x" (.int (-1))) with
  | error e => rw [hx2] at hx; simp [Except.isOk, Except.toBool] at hx
  | ok x =>
    cases hy2 : pyInt (dget data "window_position_y" (.int (-1))) with
    | error e => rw [hy2] at hy; simp [Except.isOk, Except.toBool] at hy
    | ok y =>
      simp [UserSettings.from_dict, hx2, hy2, Bind.bind, Except.bind,
        Except.isOk, Except.toBool, pure, Except.pure]

/-- Witness for the amended C2: a dict with junk in the string/enum fields
and no window positions parses fine. -/
theorem c2_amended_witness :
    (UserSettings.from_dict
      [("push_to_talk_key", .int 3), ("output_mode", .str "bogus")]).isOk = true :=
  c2_amended_from_dict_total
    [("push_to_talk_key", .int 3), ("output_mode", .str "bogus")] rfl rfl

/-- A record whose every field holds a value from its declared domain — what
valid `set` calls produce, per the spec's schema table (§3). -/
def InDomain (s : UserSettings) : Prop :=
  (∃ k, s.push_to_talk_key = .str k ∧ k.length ≤ 50) ∧
  (∃ om1, s.output_mode = .om om1) ∧
  (∃ l, s.language = .str l ∧ l.length ≤ 10) ∧
  (∃ b, s.smart_formatting_enabled = .bool b) ∧
  (s.smart_formatting_level = .str "none" ∨ s.smart_formatting_level = .str "basic" ∨
    s.smart_formatting_level = .str "smart") ∧
  (∃ wm1, s.window_mode = .wm wm1) ∧
  (∃ x, s.window_position_x = .int x) ∧
  (∃ y, s.window_position_y = .int y)

/-- C6: round-trip — for every record whose fields are all in their declared
domains, `from_dict (to_dict record)` succeeds and returns a record equal to
`record` (serialize/deserialize is lossless for conforming documents). -/
theorem c6_roundtrip (s : UserSettings) (h : InDomain s) :
    UserSettings.from_dict s.to_dict = .ok s := by
  obtain ⟨f1, f2, f3, f4, f5, f6, f7, f8⟩ := s
  obtain ⟨⟨k, hk, hk50⟩, ⟨om1, hom⟩, ⟨l, hl, hl10⟩, ⟨b, hb⟩, hlvl, ⟨wm1, hwm⟩,
    ⟨x, hx⟩, ⟨y, hy⟩⟩ := h
  dsimp only at hk hom hl hb hlvl hwm hx hy
  subst hk hom hl hb hwm hx hy
  have e1 : pyTake k 50 = k := pyTake_of_le k 50 hk50
  have e2 : pyTake l 10 = l := pyTake_of_le l 10 hl10
  rcases hlvl with h5 | h5 | h5 <;> subst h5 <;>
    cases om1 <;> cases wm1 <;>
      simp [UserSettings.from_dict, UserSettings.to_dict, dget, pyStr,
        OutputMode.ofVal, WindowMode.ofVal, OutputMode.value, WindowMode.value,
        pyInt, pyBool, e1, e2, Bind.bind, Except.bind, pure, Except.pure] <;>
      decide

/-- Witness for C6: the all-defaults record round-trips. -/
theorem c6_roundtrip_witness :
    UserSettings.from_dict (UserSettings.to_dict {}) = .ok ({} : UserSettings) :=
  c6_roundtrip {}
    ⟨⟨"f2", rfl, by decide⟩, ⟨.type, rfl⟩, ⟨"fr", rfl, by decide⟩, ⟨true, rfl⟩,
      Or.inr (Or.inl rfl), ⟨.floating, rfl⟩, ⟨-1, rfl⟩, ⟨-1, rfl⟩⟩

/-- The settings record reached after a burst of raw known-field stores. -/
def burstSettings (s : UserSettings) (es : List SetEvent) : UserSettings :=
  es.foldl (fun s1 e => updKnown s1 e.key e.value) s

/-- The time of the last event of a burst that started at `t`. -/
def lastT (t : Nat) (es : List SetEvent) : Nat := es.foldl (fun _ e => e.t) t

/-- Mid-burst invariant: nothing written yet, the timer log is a prefix of
spent (cancelled or fired) timers followed by the single live timer armed by
the event at time `t` (due at `t + 500 ms`), and the held handle points at
that live timer. -/
def BurstInv (t : Nat) (w : Sched) : Prop :=
  w.writes = [] ∧
  ∃ pre, w.m.timers = pre ++ [⟨t + SAVE_DELAY, false, false⟩] ∧
    (∀ tm ∈ pre, tm.active = false) ∧
    w.m.save_timer = some pre.length

theorem hasattr_of_field (key : String) (h : key ∈ fieldNames) :
    hasattrUS key = true := by
  fin_cases h <;> rfl

theorem rawSetattr_known (s : UserSettings) (key : String) (v : PyVal)
    (h : key ∈ fieldNames) :
    rawSetattr s key v = .ok (updKnown s key v) := by
  fin_cases h <;> rfl

theorem set_concat_length (pre : List Timer) (a b : Timer) :
    (pre ++ [a]).set pre.length b = pre ++ [b] := by
  induction pre with
  | nil => rfl
  | cons hd tl ih => simp [ih]

theorem fireTimers_noop (w : Sched) (t : Nat)
    (h : ∀ tm ∈ w.m.timers, tm.due t = false) :
    fireTimers w t = w := by
  have hmap : w.m.timers.map
      (fun tm => if tm.due t then { tm with fired := true } else tm) = w.m.timers := by
    conv_rhs => rw [← List.map_id w.m.timers]
    refine List.map_congr_left ?_
    intro a ha
    simp [h a ha]
  have hcnt : w.m.timers.countP (fun tm => tm.due t) = 0 :=
    List.countP_eq_zero.mpr (fun a ha => by simp [h a ha])
  unfold fireTimers
  rw [hmap, hcnt]
  simp

theorem burst_fire_noop (t t2 : Nat) (w : Sched) (hb : BurstInv t w)
    (hlt : t2 < t + SAVE_DELAY) : fireTimers w t2 = w := by
  obtain ⟨hw, pre, htm, hpre, hst⟩ := hb
  refine fireTimers_noop w t2 ?_
  intro tm htm2
  rw [htm] at htm2
  rcases List.mem_append.mp htm2 with hmem | hmem
  · simp [Timer.due, hpre tm hmem]
  · simp only [List.mem_singleton] at hmem
    subst hmem
    simp [Timer.due, Timer.active]
    omega

theorem scheduleSave_concat (m : Manager) (now : Nat) (pre : List Timer) (a : Timer)
    (htm : m.timers = pre ++ [a]) (hst : m.save_timer = some pre.length) :
    scheduleSave m now =
      { m with
        timers := (pre ++ [{ a with cancelled := true }]) ++
          [⟨now + SAVE_DELAY, false, false⟩]
        save_timer := some (pre.length + 1) } := by
  unfold scheduleSave
  rw [hst, htm]
  simp only [List.getElem?_concat_length, set_concat_length]
  simp [List.length_append]

theorem set_known_sched (m : Manager) (t : Nat) (key : String) (v : PyVal)
    (hkey : key ∈ fieldNames) :
    SettingsManager.set m t key v true =
      .ok (scheduleSave { m with settings := updKnown m.settings key v } t,
           runCallbacks m.callbacks key v) := by
  unfold SettingsManager.set
  rw [hasattr_of_field key hkey, rawSetattr_known m.settings key v hkey]
  rfl

theorem set_known_step (m : Manager) (t : Nat) (key : String) (v : PyVal)
    (hkey : key ∈ fieldNames) (pre : List Timer) (a : Timer)
    (htm : m.timers = pre ++ [a]) (hst : m.save_timer = some pre.length) :
    SettingsManager.set m t key v true =
      .ok ({ m with
              settings := updKnown m.settings key v
              timers := (pre ++ [{ a with cancelled := true }]) ++
                [⟨t + SAVE_DELAY, false, false⟩]
              save_timer := some (pre.length + 1) },
           runCallbacks m.callbacks key v) := by
  rw [set_known_sched m t key v hkey,
    scheduleSave_concat { m with settings := updKnown m.settings key v } t pre a htm hst]

theorem set_known_first (m : Manager) (t : Nat) (key : String) (v : PyVal)
    (hkey : key ∈ fieldNames) (hst : m.save_timer = Option.none) :
    SettingsManager.set m t key v true =
      .ok ({ m with
              settings := updKnown m.settings key v
              timers := m.timers ++ [⟨t + SAVE_DELAY, false, false⟩]
              save_timer := some m.timers.length },
           runCallbacks m.callbacks key v) := by
  rw [set_known_sched m t key v hkey]
  unfold scheduleSave
  rw [hst]

theorem scheduleSave_preserves (m : Manager) (now : Nat) (h : InvAct m) :
    InvAct (scheduleSave m now) := by
  intro j tm hj ha
  unfold scheduleSave at hj ⊢
  cases hst : m.save_timer with
  | none =>
    simp only [hst] at hj ⊢
    rcases Nat.lt_trichotomy j m.timers.length with hlt | heq | hgt
    · rw [List.getElem?_append, if_pos hlt] at hj
      have h2 := h j tm hj ha
      rw [hst] at h2
      cases h2
    · subst heq
      rfl
    · rw [List.getElem?_eq_none (by simp [List.length_append]; omega)] at hj
      cases hj
  | some i =>
    simp only [hst] at hj ⊢
    cases hgi : m.timers[i]? with
    | none =>
      simp only [hgi] at hj ⊢
      rcases Nat.lt_trichotomy j m.timers.length with hlt | heq | hgt
      · rw [List.getElem?_append, if_pos hlt] at hj
        have h2 := h j tm hj ha
        rw [hst] at h2
        injection h2 with h3
        subst h3
        rw [hgi] at hj
        cases hj
      · subst heq
        rfl
      · rw [List.getElem?_eq_none (by simp [List.length_append]; omega)] at hj
        cases hj
    | some tma =>
      simp only [hgi] at hj ⊢
      rcases Nat.lt_trichotomy j m.timers.length with hlt | heq | hgt
      · rw [List.getElem?_append, if_pos (by rw [List.length_set]; exact hlt)] at hj
        by_cases hij : i = j
        · subst hij
          rw [List.getElem?_set_self hlt] at hj
          injection hj with h4
          subst h4
          simp [Timer.active] at ha
        · rw [List.getElem?_set_ne hij] at hj
          have h2 := h j tm hj ha
          rw [hst] at h2
          injection h2 with h3
          exact absurd h3 hij
      · subst heq
        rw [List.length_set]
      · rw [List.getElem?_eq_none (by simp [List.length_set]; omega)] at hj
        cases hj

theorem fireTimers_preserves (w : Sched) (t : Nat) (h : InvAct w.m) :
    InvAct (fireTimers w t).m := by
  intro j tm hj ha
  unfold fireTimers at hj ⊢
  simp only at hj ⊢
  rw [List.getElem?_map] at hj
  cases hjo : w.m.timers[j]? with
  | none => rw [hjo] at hj; cases hj
  | some tm0 =>
    rw [hjo] at hj
    have h2 : (if tm0.due t then { tm0 with fired := true } else tm0) = tm := by
      simpa using hj
    by_cases hdue : tm0.due t
    · rw [if_pos hdue] at h2
      subst h2
      simp [Timer.active] at ha
    · rw [if_neg hdue] at h2
      subst h2
      exact h j tm0 hjo ha

theorem set_preserves (m : Manager) (now : Nat) (key : String) (v : PyVal)
    (sv : Bool) (m2 : Manager) (invs : List Invocation) (h : InvAct m)
    (hok : SettingsManager.set m now key v sv = .ok (m2, invs)) : InvAct m2 := by
  by_cases hattr : hasattrUS key = true
  · unfold SettingsManager.set at hok
    rw [hattr] at hok
    simp only [Bool.not_true, Bool.false_eq_true, if_false] at hok
    cases hra : rawSetattr m.settings key v with
    | error e => rw [hra] at hok; cases hok
    | ok s =>
      rw [hra] at hok
      simp only [Except.ok.injEq, Prod.mk.injEq] at hok
      obtain ⟨hm2, _⟩ := hok
      have hInv1 : InvAct { m with settings := s } := fun j tm hj ha => h j tm hj ha
      cases sv
      · rw [← hm2]; exact hInv1
      · rw [← hm2]; exact scheduleSave_preserves _ now hInv1
  · have hf : hasattrUS key = false := by simpa using hattr
    have hnoop : SettingsManager.set m now key v sv = .ok (m, []) := by
      unfold SettingsManager.set
      rw [hf]
      rfl
    rw [hnoop] at hok
    simp only [Except.ok.injEq, Prod.mk.injEq] at hok
    obtain ⟨hm2, _⟩ := hok
    rw [← hm2]
    exact h

theorem flush_burst_writes (t : Nat) (w : Sched) (hb : BurstInv t w) :
    (flushTimers w).writes = [w.m.settings] := by
  obtain ⟨hw, pre, htm, hpre, hst⟩ := hb
  unfold flushTimers
  simp only
  rw [hw, htm, List.countP_append]
  have h0 : pre.countP (fun tm => tm.active) = 0 :=
    List.countP_eq_zero.mpr (fun a ha => by simp [hpre a ha])
  rw [h0]
  simp [Timer.active, List.countP, List.countP.go]

theorem runEvents_burst (es : List SetEvent) : ∀ (t : Nat) (w : Sched),
    BurstInv t w → GoodFrom t es → (∀ e ∈ es, e.key ∈ fieldNames) →
    ∃ w1, runEvents w es = some w1 ∧ BurstInv (lastT t es) w1 ∧
      w1.m.settings = burstSettings w.m.settings es := by
  induction es with
  | nil =>
    intro t w hb _ _
    exact ⟨w, rfl, hb, rfl⟩
  | cons e es ih =>
    intro t w hb hg hk
    obtain ⟨ht1, ht2, hg2⟩ := hg
    have hfire := burst_fire_noop t e.t w hb ht2
    obtain ⟨hw, pre, htm, hpre, hst⟩ := hb
    have hset := set_known_step w.m e.t e.key e.value
      (hk e (List.mem_cons_self e es)) pre _ htm hst
    have hrun : runEvents w (e :: es) = runEvents
        { m := { w.m with
                  settings := updKnown w.m.settings e.key e.value
                  timers := (pre ++ [⟨t + SAVE_DELAY, true, false⟩]) ++
                    [⟨e.t + SAVE_DELAY, false, false⟩]
                  save_timer := some (pre.length + 1) }
          writes := w.writes } es := by
      simp only [runEvents]
      rw [hfire, hset]
    have hb2 : BurstInv e.t
        { m := { w.m with
                  settings := updKnown w.m.settings e.key e.value
                  timers := (pre ++ [⟨t + SAVE_DELAY, true, false⟩]) ++
                    [⟨e.t + SAVE_DELAY, false, false⟩]
                  save_timer := some (pre.length + 1) }
          writes := w.writes } := by
      refine ⟨hw, pre ++ [⟨t + SAVE_DELAY, true, false⟩], rfl, ?_, ?_⟩
      · intro tm htm2
        rcases List.mem_append.mp htm2 with hmem | hmem
        · exact hpre tm hmem
        · simp only [List.mem_singleton] at hmem
          subst hmem
          rfl
      · simp [List.length_append]
    obtain ⟨w1, hrun2, hb3, hs3⟩ := ih e.t _ hb2 hg2
      (fun e2 he2 => hk e2 (List.mem_cons_of_mem e he2))
    refine ⟨w1, ?_, hb3, hs3⟩
    rw [hrun]
    exact hrun2

/-- C3: (i) a timer-firing step and every successful `set` preserve the
timer-handle invariant `InvAct` (the held `_save_timer` handle is the only
outstanding timer, because `_schedule_save` cancels the pending timer before
arming a new one), and under `InvAct` any two outstanding timers coincide —
at most one save timer is outstanding at any time; (ii) a nonempty burst of
persisting known-field `set` calls on a fresh store, each arriving strictly
within the 500 ms quiescence window of the previous one, produces exactly one
disk write, whose content is the record state after the last call of the
burst. -/
theorem c3_debounce_single_write :
    (∀ (w : Sched) (t : Nat), InvAct w.m → InvAct (fireTimers w t).m) ∧
    (∀ (m : Manager) (now : Nat) (key : String) (v : PyVal) (sv : Bool)
        (m2 : Manager) (invs : List Invocation),
      InvAct m → SettingsManager.set m now key v sv = .ok (m2, invs) → InvAct m2) ∧
    (∀ m : Manager, InvAct m → ∀ (j j2 : Nat) (tm tm2 : Timer),
      m.timers[j]? = some tm → m.timers[j2]? = some tm2 →
      tm.active = true → tm2.active = true → j = j2) ∧
    (∀ (e : SetEvent) (es : List SetEvent),
      GoodFrom e.t es → (∀ ev ∈ e :: es, ev.key ∈ fieldNames) →
      (runBurst freshSched (e :: es)).map Sched.writes =
        some [burstSettings ({} : UserSettings) (e :: es)]) := by
  refine ⟨fun w t h => fireTimers_preserves w t h,
    fun m now key v sv m2 invs h hok => set_preserves m now key v sv m2 invs h hok,
    ?_, ?_⟩
  · intro m hInv j j2 tm tm2 hj hj2 ha ha2
    have e1 := hInv j tm hj ha
    have e2 := hInv j2 tm2 hj2 ha2
    rw [e1] at e2
    exact Option.some.inj e2
  · intro e es hg hk
    have hfire0 : fireTimers freshSched e.t = freshSched := by
      refine fireTimers_noop freshSched e.t ?_
      intro tm htm
      cases htm
    have hset0 := set_known_first freshSched.m e.t e.key e.value
      (hk e (List.mem_cons_self e es)) rfl
    have hrun0 : runEvents freshSched (e :: es) = runEvents
        { m := { settings := updKnown {} e.key e.value
                 callbacks := []
                 timers := [⟨e.t + SAVE_DELAY, false, false⟩]
                 save_timer := some 0 }
          writes := [] } es := by
      simp only [runEvents]
      rw [hfire0, hset0]
      rfl
    have hb1 : BurstInv e.t
        { m := { settings := updKnown {} e.key e.value
                 callbacks := []
                 timers := [⟨e.t + SAVE_DELAY, false, false⟩]
                 save_timer := some 0 }
          writes := [] } :=
      ⟨rfl, ⟨[], ⟨rfl, ⟨fun tm htm => absurd htm (List.not_mem_nil tm), rfl⟩⟩⟩⟩
    obtain ⟨w1, hrun2, hb3, hs3⟩ := runEvents_burst es e.t _ hb1 hg
      (fun e2 he2 => hk e2 (List.mem_cons_of_mem e he2))
    have hflush := flush_burst_writes (lastT e.t es) w1 hb3
    unfold runBurst
    rw [hrun0, hrun2]
    show some ((flushTimers w1).writes) = _
    rw [hflush, hs3]
    rfl

/-- Witness for C3: a two-call burst, 100 ms apart, yields exactly one write
holding the final record. -/
theorem c3_debounce_witness :
    (runBurst freshSched
        [⟨0, "language", .str "en"⟩, ⟨100, "language", .str "es"⟩]).map
      Sched.writes =
      some [burstSettings ({} : UserSettings)
        [⟨0, "language", .str "en"⟩, ⟨100, "language", .str "es"⟩]] :=
  c3_debounce_single_write.2.2.2 ⟨0, "language", .str "en"⟩
    [⟨100, "language", .str "es"⟩]
    ⟨by decide, by decide, trivial⟩ (by decide)

end WhisperFlow
